import Mathlib

/-!
Verification of the session persistence and archive synchronization engine
of the Content-Builder application (src/src/App.jsx).

The embedding models JavaScript values as a mutual inductive `JValue`
(JSON-style values plus `undefined` for the JavaScript undefined), and each
source function as a Lean function over this model.  Functions that can
throw a TypeError in JavaScript (property access on null or undefined,
calling `.trim()` on a non-string) are embedded in `Except Unit`.
JavaScript objects are modelled as ordered field lists; field update keeps
the position of an existing key, as JavaScript object spread does.  Field
lists are key-distinct in every value the program constructs.
-/

deriving instance DecidableEq for Except

mutual

inductive JValue where
  | null
  | undefined
  | bool (b : Bool)
  | num (n : Int)
  | str (s : String)
  | arr (elems : JArr)
  | obj (fields : JObj)
deriving DecidableEq, Repr

inductive JArr where
  | nil
  | cons (hd : JValue) (tl : JArr)
deriving DecidableEq, Repr

inductive JObj where
  | nil
  | cons (key : String) (val : JValue) (tl : JObj)
deriving DecidableEq, Repr

end

def JArr.toList : JArr → List JValue
  | .nil => []
  | .cons x tl => x :: tl.toList

def JArr.ofList : List JValue → JArr
  | [] => .nil
  | x :: tl => .cons x (JArr.ofList tl)

def JObj.toList : JObj → List (String × JValue)
  | .nil => []
  | .cons k v tl => (k, v) :: tl.toList

def JObj.ofList : List (String × JValue) → JObj
  | [] => .nil
  | (k, v) :: tl => .cons k v (JObj.ofList tl)

/-- Field lookup on an object, first match (objects are key-distinct). -/
def JObj.lookup : JObj → String → Option JValue
  | .nil, _ => none
  | .cons k v tl, key => if k = key then some v else tl.lookup key

/-- JavaScript assignment `o[k] = v`: updates the existing key in place
(keeping its position, as JavaScript objects do) or appends a new key. -/
def JObj.set : JObj → String → JValue → JObj
  | .nil, key, v => .cons key v .nil
  | .cons k v0 tl, key, v =>
      if k = key then .cons k v tl else .cons k v0 (tl.set key v)

/-- Object spread `{...a, ...b}`: every field of `b` assigned into `a`. -/
def JObj.spread (a : JObj) : JObj → JObj
  | .nil => a
  | .cons k v tl => (a.set k v).spread tl

/-- JavaScript truthiness of a value. -/
def jTruthy : JValue → Bool
  | .null => false
  | .undefined => false
  | .bool b => b
  | .num n => n != 0
  | .str s => s ≠ ""
  | .arr _ => true
  | .obj _ => true

/-- Property access `v[k]` where a missing property reads as undefined.
Returns `none` exactly when JavaScript would throw a TypeError, i.e. when
the receiver is null or undefined.  Primitive receivers yield undefined for
every property name the program ever reads (none of the names used by the
source is a built-in of String or Array). -/
def jGet : JValue → String → Option JValue
  | .null, _ => none
  | .undefined, _ => none
  | .obj fs, k => some ((fs.lookup k).getD .undefined)
  | _, _ => some .undefined

/-- Optional-chained access `v?.k`: null/undefined receivers give undefined
instead of throwing. -/
def jGetOpt (v : JValue) (k : String) : JValue :=
  (jGet v k).getD .undefined

/-- `a || b` on an already-evaluated left operand. -/
def jOr (a b : JValue) : JValue :=
  if jTruthy a then a else b

/-- JSON.stringify on the model.  Fields are emitted in insertion order as
JavaScript does; an undefined array element prints as null and an undefined
field is omitted, per the JSON.stringify specification.  String escaping
covers the characters that occur in this development (backslash, quote,
newline); the program never manufactures other control characters. -/
def escapeJsonChar (c : Char) : List Char :=
  if c = '\\' then ['\\', '\\']
  else if c = '"' then ['\\', '"']
  else if c = '\n' then ['\\', 'n']
  else [c]

def escapeJsonString (s : String) : String :=
  ⟨s.data.foldr (fun c acc => escapeJsonChar c ++ acc) []⟩

def joinComma : List String → String
  | [] => ""
  | [x] => x
  | x :: xs => x ++ "," ++ joinComma xs

mutual

def stringify : JValue → String
  | .null => "null"
  | .undefined => "undefined"
  | .bool b => if b then "true" else "false"
  | .num n => toString n
  | .str s => "\"" ++ escapeJsonString s ++ "\""
  | .arr xs => "[" ++ joinComma (arrParts xs) ++ "]"
  | .obj fs => "\x7b" ++ joinComma (objParts fs) ++ "\x7d"

def arrParts : JArr → List String
  | .nil => []
  | .cons .undefined tl => "null" :: arrParts tl
  | .cons x tl => stringify x :: arrParts tl

def objParts : JObj → List String
  | .nil => []
  | .cons _ .undefined tl => objParts tl
  | .cons k v tl =>
      ("\"" ++ escapeJsonString k ++ "\":" ++ stringify v) :: objParts tl

end

/-- Whitespace recognised by the JavaScript `trim` for the characters this
program can encounter. -/
def isJsSpace (c : Char) : Bool :=
  c = ' ' || c = '\t' || c = '\n' || c = '\r'

/-- JavaScript `String.prototype.trim`. -/
def jsTrim (s : String) : String :=
  ⟨((s.data.dropWhile isJsSpace).reverse.dropWhile isJsSpace).reverse⟩

/-! ## Durable key-value store and the storage key namespace (App.jsx 10-31) -/

def VERSION_STORAGE_KEY : String := "contentos.version"

def SETTINGS_STORAGE_KEYS : List String :=
  ["contentos.brand", "contentos.contentTypes"]

def TOPIC_ARCHIVE_STORAGE_KEY : String := "contentos.topics.archive"

def LOCAL_STORAGE_KEYS : List String :=
  [ "contentos.session",
    "contentos.locks",
    "contentos.refdata",
    "contentos.topics",
    "contentos.snapshot",
    "contentos.snapshot.chat",
    "contentos.article",
    "contentos.podcast",
    "contentos.social.design",
    "contentos.n8n",
    TOPIC_ARCHIVE_STORAGE_KEY ]

/-- The browser localStorage: a list of key/value entries plus an
availability flag.  When `available` is false every access throws, which is
the storage-disabled situation the source guards with try/catch. -/
structure Store where
  items : List (String × String)
  available : Bool
deriving DecidableEq, Repr

def storeLookup : List (String × String) → String → Option String
  | [], _ => none
  | (k0, v0) :: tl, k => if k0 = k then some v0 else storeLookup tl k

def storeRemove : List (String × String) → String → List (String × String)
  | [], _ => []
  | (k0, v0) :: tl, k =>
      if k0 = k then storeRemove tl k else (k0, v0) :: storeRemove tl k

def Store.get (st : Store) (k : String) : Option String :=
  storeLookup st.items k

def Store.removeKey (st : Store) (k : String) : Store :=
  { st with items := storeRemove st.items k }

def Store.setKey (st : Store) (k : String) (v : String) : Store :=
  { st with items := storeRemove st.items k ++ [(k, v)] }

def Store.keys (st : Store) : List String :=
  st.items.map (fun kv => kv.1)

/-! ## Versioned namespace guard (App.jsx 368-385)

The module top-level block wrapped in try/catch: when storage access
throws (modelled by `available = false`) the whole block is skipped.
The returned Bool records whether `window.location.reload()` was called. -/

def versionGuard (appVersion : String) (st : Store) : Store × Bool :=
  if st.available then
    let storedVersion := st.get VERSION_STORAGE_KEY
    if storedVersion ≠ some appVersion then
      let cleared := LOCAL_STORAGE_KEYS.foldl (fun s k => s.removeKey k) st
      let written := cleared.setKey VERSION_STORAGE_KEY appVersion
      (written, (jTruthy (match storedVersion with
        | some s => JValue.str s
        | none => JValue.null)))
    else
      (st, false)
  else
    (st, false)

/-! ## resetSession storage sweep (App.jsx 3854-3870)

resetSession collects every stored key that starts with "contentos." and
is not one of the two settings keys, then removes them; the whole sweep is
inside try/catch, so a throwing store leaves everything in place.  (The
subsequent in-memory cell resets are modelled separately where a claim
needs them.) -/

/-- The JavaScript `k.startsWith(p)` on the character level. -/
def strStartsWith (s p : String) : Bool :=
  p.data.isPrefixOf s.data

def resetSessionSweep (st : Store) : Store :=
  if st.available then
    let toDelete := (st.keys).filter
      (fun k => strStartsWith k "contentos." &&
        !(SETTINGS_STORAGE_KEYS.contains k))
    toDelete.foldl (fun s k => s.removeKey k) st
  else
    st

/-! ## HTML helpers (App.jsx 44-76, 205-213)

escapeHtml chains five global regex replaces (& < > " grave-free quote).
No replacement output contains a character targeted by a later replace,
and the ampersands introduced by later replacements are introduced after
the ampersand pass has run, so the chain equals a single character-wise
substitution, which is how it is embedded. -/

def escapeHtmlChar (c : Char) : List Char :=
  if c = '&' then "&amp;".data
  else if c = '<' then "&lt;".data
  else if c = '>' then "&gt;".data
  else if c = '"' then "&quot;".data
  else if c = Char.ofNat 39 then "&#39;".data
  else [c]

def escapeHtml (s : String) : String :=
  ⟨s.data.foldr (fun c acc => escapeHtmlChar c ++ acc) []⟩

/-- `value.replace(/\n/g, "<br>")`. -/
def nlToBr (s : String) : String :=
  ⟨s.data.foldr (fun c acc => (if c = '\n' then "<br>".data else [c]) ++ acc) []⟩

def isAsciiLetter (c : Char) : Bool :=
  ('a' ≤ c && c ≤ 'z') || ('A' ≤ c && c ≤ 'Z')

/-- After `<` and the optional `/`, the pattern needs a letter and then a
closing `>` anywhere to the right (`[\s\S]*` matches everything). -/
def tagLetterClose : List Char → Bool
  | [] => false
  | c :: rest => isAsciiLetter c && rest.contains '>'

def tagAfterOpen : List Char → Bool
  | '/' :: rest => tagLetterClose rest
  | cs => tagLetterClose cs

def hasTagFrom : List Char → Bool
  | [] => false
  | '<' :: rest => tagAfterOpen rest || hasTagFrom rest
  | _ :: rest => hasTagFrom rest

/-- `HTML_TAG_PATTERN.test(value)` for the regex `<\/?[a-z][\s\S]*>` with
the case-insensitive flag. -/
def hasHtmlTag (s : String) : Bool :=
  hasTagFrom s.data

/-- One step of splitting on runs of two or more newlines
(`split(/\n{2,}/)`); the state is (finished segments, current segment
reversed, pending newline count). -/
def splitBlankStep (st : List (List Char) × List Char × Nat) (c : Char) :
    List (List Char) × List Char × Nat :=
  let (segs, cur, nl) := st
  if c = '\n' then (segs, cur, nl + 1)
  else if nl ≥ 2 then (segs ++ [cur.reverse], [c], 0)
  else if nl = 1 then (segs, c :: '\n' :: cur, 0)
  else (segs, c :: cur, 0)

def splitBlankLines (cs : List Char) : List (List Char) :=
  let (segs, cur, nl) := cs.foldl splitBlankStep ([], [], 0)
  if nl ≥ 2 then segs ++ [cur.reverse, []]
  else if nl = 1 then segs ++ [('\n' :: cur).reverse]
  else segs ++ [cur.reverse]

def concatStrings : List String → String
  | [] => ""
  | x :: xs => x ++ concatStrings xs

/-- ensureHtmlContent (App.jsx 55-76). -/
def ensureHtmlContent (value : String) : String :=
  if value = "" then ""
  else if hasHtmlTag value then value
  else
    let escaped := escapeHtml value
    let paragraphs :=
      ((splitBlankLines escaped.data).map (fun cs => jsTrim ⟨cs⟩)).filter
        (fun p => p ≠ "")
    if paragraphs.length = 0 then
      let singleLine := nlToBr escaped
      if singleLine ≠ "" then "<p>" ++ singleLine ++ "</p>" else ""
    else
      concatStrings (paragraphs.map (fun paragraph =>
        let withBreaks := nlToBr paragraph
        "<p>" ++ (if withBreaks ≠ "" then withBreaks else "<br>") ++ "</p>"))

/-! ## Snapshot section definitions (App.jsx 91-146) -/

structure SectionDef where
  id : String
  title : String
  helper : String
  maxChars : Nat
  required : Bool
deriving DecidableEq, Repr

def SNAPSHOT_SECTION_DEFINITIONS : List SectionDef :=
  [ { id := "problem", title := "Problem",
      helper := "State the cost of inaction in one sentence.",
      maxChars := 280, required := true },
    { id := "model", title := "Model",
      helper := "Name the framework or method you’ll use to solve it.",
      maxChars := 260, required := true },
    { id := "metaphor", title := "Metaphor",
      helper := "Offer a vivid comparison that makes the model stick.",
      maxChars := 180, required := true },
    { id := "caseStat", title := "Case / Stat",
      helper := "Share one proof point—metric, testimonial, or mini-case.",
      maxChars := 220, required := true },
    { id := "actionSteps", title := "Action Steps",
      helper := "List 2–3 specific moves the audience can take next.",
      maxChars := 260, required := true },
    { id := "oneLiner", title := "One-liner + Context",
      helper := "Draft the hook and where you’ll use it.",
      maxChars := 120, required := true } ]

def SNAPSHOT_SECTION_IDS : List String :=
  SNAPSHOT_SECTION_DEFINITIONS.map (fun d => d.id)

/-- An {id, content} record as the JavaScript object it is. -/
def sectionToJ (s : String × String) : JValue :=
  .obj (.cons "id" (.str s.1) (.cons "content" (.str s.2) .nil))

def sectionsToJ (l : List (String × String)) : JValue :=
  .arr (JArr.ofList (l.map sectionToJ))

/-- createEmptySnapshotSections / createEmptySnapshotState (App.jsx 147-160). -/
def createEmptySnapshotSections : List (String × String) :=
  SNAPSHOT_SECTION_DEFINITIONS.map (fun d => (d.id, ""))

def createEmptySnapshotFields : JObj :=
  .cons "sections" (sectionsToJ createEmptySnapshotSections)
    (.cons "aiDraft" (.str "") (.cons "text" (.str "") .nil))

def createEmptySnapshotState : JValue :=
  .obj createEmptySnapshotFields

/-! ## normalizeSnapshot (App.jsx 215-269)

The raw sections pipeline: `value.sections.map(...)` throws a TypeError on
a null or undefined element (`section.id`); every other element maps to an
{id, content} pair whose content is coerced to a string.  The subsequent
filter keeps only pairs whose id is one of the six canonical id strings. -/

def mapRawSections : List JValue → Except Unit (List (JValue × String))
  | [] => .ok []
  | .null :: _ => .error ()
  | .undefined :: _ => .error ()
  | v :: rest => do
      let tl ← mapRawSections rest
      pure ((jGetOpt v "id",
        match jGetOpt v "content" with
        | .str s => s
        | _ => "") :: tl)

def filterCanonSections : List (JValue × String) → List (String × String)
  | [] => []
  | (.str s, c) :: rest =>
      if SNAPSHOT_SECTION_IDS.contains s
      then (s, c) :: filterCanonSections rest
      else filterCanonSections rest
  | _ :: rest => filterCanonSections rest

/-- `new Map(rawSections.map(s => [s.id, s]))` keeps the last entry per id;
its `.get` is therefore a last-wins lookup. -/
def lookupLast : List (String × String) → String → Option String
  | [], _ => none
  | (k, v) :: rest, key =>
      match lookupLast rest key with
      | some r => some r
      | none => if k = key then some v else none

def normalizedBaseOf (raw : List (String × String)) : List (String × String) :=
  SNAPSHOT_SECTION_DEFINITIONS.map (fun d => (d.id, (lookupLast raw d.id).getD ""))

/-- Final section order (App.jsx 239-245): every occurrence of an id in the
filtered raw list pulls in its normalized section, then the canonical ids
not present at all follow in definition order. -/
def orderedSectionsOf (raw : List (String × String)) : List (String × String) :=
  let base := normalizedBaseOf raw
  let orderIds := raw.map (fun s => s.1)
  (orderIds.filterMap (fun i => base.find? (fun s => s.1 = i))) ++
    base.filter (fun s => !(orderIds.contains s.1))

/-- Spreading a JavaScript value into an object literal: objects contribute
their fields, arrays their index-keyed elements, and nothing else reaches a
spread in this program (primitives are stopped by the typeof guard). -/
def indexFields : Nat → List JValue → JObj
  | _, [] => .nil
  | i, v :: rest => .cons (toString i) v (indexFields (i + 1) rest)

def objFieldsOf : JValue → JObj
  | .obj fs => fs
  | .arr xs => indexFields 0 xs.toList
  | _ => .nil

def rawSectionsOf (v : JValue) : Except Unit (List (String × String)) :=
  match jGetOpt v "sections" with
  | .arr xs => do
      let mapped ← mapRawSections xs.toList
      pure (filterCanonSections mapped)
  | _ => .ok []

def aiDraftRawOf (v : JValue) (rawLen : Nat) : String :=
  match jGetOpt v "aiDraft" with
  | .str s => s
  | _ =>
    match jGetOpt v "generatedHtml" with
    | .str s => s
    | _ =>
      match jGetOpt v "text" with
      | .str s => if rawLen = 0 then s else ""
      | _ => ""

def normalizeSnapshot (value : JValue) : Except Unit JValue :=
  match value with
  | .obj _ | .arr _ => do
      let rawSections ← rawSectionsOf value
      let orderedSections := orderedSectionsOf rawSections
      let aiDraftRaw := aiDraftRawOf value rawSections.length
      let aiDraft :=
        if aiDraftRaw ≠ "" && !hasHtmlTag aiDraftRaw
        then ensureHtmlContent aiDraftRaw
        else aiDraftRaw
      pure (.obj
        (((createEmptySnapshotFields.spread (objFieldsOf value)).set
            "sections" (sectionsToJ orderedSections)).set
          "aiDraft" (.str aiDraft)))
  | _ => .ok createEmptySnapshotState

/-! ## snapshotSectionsToHtml / finalizeSnapshot (App.jsx 271-295) -/

def sectionBlockHtml (sec : JValue) : Except Unit String :=
  match jGet sec "id" with
  | none => .error ()
  | some idv =>
    match SNAPSHOT_SECTION_DEFINITIONS.find? (fun d => idv = .str d.id) with
    | none => .ok ""
    | some dfn => do
      let content ←
        (let cv := jGetOpt sec "content"
         if !(jTruthy cv) then Except.ok ""
         else match cv with
           | .str s => Except.ok (jsTrim s)
           | _ => Except.error ())
      if content = "" then pure ""
      else pure ("<section><h3>" ++ escapeHtml dfn.title ++ "</h3>" ++
        ensureHtmlContent content ++ "</section>")

def mapSectionBlocks : List JValue → Except Unit (List String)
  | [] => .ok []
  | v :: rest => do
      let h ← sectionBlockHtml v
      let tl ← mapSectionBlocks rest
      pure (h :: tl)

def snapshotSectionsToHtml (v : JValue) : Except Unit String :=
  match v with
  | .arr xs => do
      let blocks ← mapSectionBlocks xs.toList
      pure (concatStrings (blocks.filter (fun b => b ≠ "")))
  | _ => .ok ""

def finalizeSnapshot (value : JValue) : Except Unit JValue :=
  do
    let normalized ← normalizeSnapshot value
    let text ← snapshotSectionsToHtml (jGetOpt normalized "sections")
    match normalized with
    | .obj fs => pure (.obj (fs.set "text" (.str text)))
    | other => pure other

/-! ## Archive entries and the component state (App.jsx 3239-3355)

`AppState` carries the session cell, the eleven state cells that make up a
full session bundle (as the JavaScript values they hold), the archive
list, the active archive entry id (a useState initialised to null), and
the continuous-sync guard reference `archiveSyncRef` (null after restore
and new-session, otherwise the last pushed serialization).  The
`snapshotState` field is the persisted snapshot cell; the `snapshot`
value the bundle literal reads is the memo `finalizeSnapshot(snapshotState)`. -/

structure SessionRec where
  id : String
  startedAt : String
deriving DecidableEq, Repr

structure ArchiveEntry where
  id : String
  sessionId : String
  startedAt : String
  savedAt : String
  title : String
  data : JValue
deriving DecidableEq, Repr

structure AppState where
  session : SessionRec
  brand : JValue
  contentPreferences : JValue
  topics : JValue
  snapshotState : JValue
  snapshotChatMessages : JValue
  article : JValue
  podcast : JValue
  social : JValue
  refdata : JValue
  n8n : JValue
  locks : JValue
  archives : List ArchiveEntry
  activeArchiveId : Option String
  archiveSyncRef : Option String
deriving DecidableEq, Repr

/-- The archive bundle object literal `{brand, contentPreferences, topics,
snapshot, snapshotChatMessages, article, podcast, social, refdata, n8n,
locks}` (App.jsx 3361-3372 and 3558-3569), with `snapshot` the finalized
view of the snapshot cell. -/
def bundleOfState (s : AppState) : Except Unit JValue := do
  let snapshot ← finalizeSnapshot s.snapshotState
  pure (.obj (JObj.ofList
    [ ("brand", s.brand),
      ("contentPreferences", s.contentPreferences),
      ("topics", s.topics),
      ("snapshot", snapshot),
      ("snapshotChatMessages", s.snapshotChatMessages),
      ("article", s.article),
      ("podcast", s.podcast),
      ("social", s.social),
      ("refdata", s.refdata),
      ("n8n", s.n8n),
      ("locks", s.locks) ]))

/-- `Array.isArray(archiveData.topics) ? archiveData.topics : []`; the
receiver is always truthy here, so no access can throw. -/
def topicListOf (archiveData : JValue) : List JValue :=
  match jGetOpt archiveData "topics" with
  | .arr xs => xs.toList
  | _ => []

/-- `topicList.some(t => typeof t?.name === "string" && t.name.trim().length)`. -/
def hasTopicIn (topicList : List JValue) : Bool :=
  topicList.any (fun t =>
    match jGetOpt t "name" with
    | .str s => jsTrim s ≠ ""
    | _ => false)

/-- `topicList[0]?.name?.trim() || "Untitled topic"`: throws a TypeError
when the first topic has a name that is neither a string nor
null/undefined (a number has no `trim` method). -/
def titleOf (topicList : List JValue) : Except Unit String :=
  match topicList.head? with
  | none => .ok "Untitled topic"
  | some t =>
    match jGetOpt t "name" with
    | .undefined => .ok "Untitled topic"
    | .null => .ok "Untitled topic"
    | .str s => .ok (if jsTrim s = "" then "Untitled topic" else jsTrim s)
    | _ => .error ()

/-- `prev.findIndex(...)` followed by reading `prev[index]`: the first
matching entry. -/
def findMatch (p : ArchiveEntry → Bool) : List ArchiveEntry → Option ArchiveEntry
  | [] => none
  | e :: rest => if p e then some e else findMatch p rest

/-- `next[index] = updated` at the index found by `findIndex`: replace the
first matching entry. -/
def replaceMatch (p : ArchiveEntry → Bool) (u : ArchiveEntry) :
    List ArchiveEntry → List ArchiveEntry
  | [] => []
  | e :: rest => if p e then u :: rest else e :: replaceMatch p u rest

/-- The findIndex predicate `entryId ? item.id === entryId
: item.sessionId === session.id` (an empty entryId is falsy). -/
def matchPred (entryId sessionId : String) (item : ArchiveEntry) : Bool :=
  if entryId ≠ "" then item.id = entryId else item.sessionId = sessionId

/-- persistSessionToArchive (App.jsx 3357-3431).  `now` is the
`new Date().toISOString()` of this call and `fresh` the `uuid()` drawn if
a new entry is created.  Returns the entry the source assigns to
`createdEntry` and the updated archive list. -/
def persistSessionToArchive (s : AppState) (entryId : String)
    (dataOverride : Option JValue) (now fresh : String) :
    Except Unit (Option ArchiveEntry × List ArchiveEntry) :=
  if s.session.id = "" then .ok (none, s.archives)
  else do
    let archiveData ←
      match dataOverride with
      | some v => if jTruthy v then pure v else bundleOfState s
      | none => bundleOfState s
    let topicList := topicListOf archiveData
    if !(hasTopicIn topicList) then pure (none, s.archives)
    else do
      let title ← titleOf topicList
      let p := matchPred entryId s.session.id
      match findMatch p s.archives with
      | some existing =>
          let baseEntry : ArchiveEntry :=
            { id := if entryId ≠ "" then entryId else existing.id,
              sessionId := s.session.id,
              startedAt := s.session.startedAt,
              savedAt := now,
              title := title,
              data := archiveData }
          if stringify existing.data = stringify archiveData ∧
              existing.title = title
          then pure (some existing, s.archives)
          else pure (some baseEntry, replaceMatch p baseEntry s.archives)
      | none =>
          let baseEntry : ArchiveEntry :=
            { id := if entryId ≠ "" then entryId else fresh,
              sessionId := s.session.id,
              startedAt := s.session.startedAt,
              savedAt := now,
              title := title,
              data := archiveData }
          pure (some baseEntry, baseEntry :: s.archives)

/-! ## Default cell values used by restore and reset (App.jsx 33-42, 3239-3352) -/

def createDefaultBrand : JValue :=
  .obj (JObj.ofList
    [ ("archetype", .str ""), ("tone", .str ""), ("audience", .str ""),
      ("values", .str ""), ("phrases", .str ""), ("style", .str "") ])

def createDefaultContentPreferences : JValue := .arr .nil

def rangeList : Nat → List Nat
  | 0 => []
  | n + 1 => rangeList n ++ [n]

/-- `Array.from({length: 10}, (_, i) => ({title: "Short #" + (i+1), script: ""}))`. -/
def makeShorts : JValue :=
  .arr (JArr.ofList ((rangeList 10).map (fun i =>
    .obj (JObj.ofList
      [ ("title", .str ("Short #" ++ toString (i + 1))), ("script", .str "") ]))))

def makePolls : JValue :=
  .arr (JArr.ofList ((rangeList 5).map (fun i =>
    .obj (JObj.ofList
      [ ("question", .str ("Poll question #" ++ toString (i + 1))),
        ("options", .arr (JArr.ofList
          [.str "Option A", .str "Option B", .str "Option C", .str "Option D"])) ]))))

def makeCarousels : JValue :=
  .arr (JArr.ofList
    [ .obj (JObj.ofList
        [ ("title", .str "Carousel"),
          ("slides", .arr (JArr.ofList
            [ .obj (JObj.ofList [("heading", .str "Slide 1"), ("body", .str "")]),
              .obj (JObj.ofList [("heading", .str "Slide 2"), ("body", .str "")]),
              .obj (JObj.ofList [("heading", .str "Slide 3"), ("body", .str "")]) ])) ]) ])

def makeImages : JValue :=
  .arr (JArr.ofList ((rangeList 6).map (fun i =>
    .obj (JObj.ofList
      [ ("caption", .str ("Image post #" ++ toString (i + 1))),
        ("alt", .str "Describe the visual"),
        ("postCaption", .str "Share the story behind the visual") ]))))

def makeNewsletters : JValue :=
  .arr (JArr.ofList ((rangeList 3).map (fun i =>
    .obj (JObj.ofList
      [ ("subject", .str ("Newsletter #" ++ toString (i + 1))), ("body", .str "") ]))))

def defaultSocial : JValue :=
  .obj (JObj.ofList
    [ ("shorts", makeShorts), ("polls", makePolls),
      ("quote", .obj (JObj.ofList [("text", .str ""), ("author", .str "")])),
      ("carousels", makeCarousels), ("images", makeImages),
      ("newsletters", makeNewsletters), ("questions", .arr .nil) ])

def defaultArticle : JValue :=
  .obj (JObj.ofList [("content", .str ""), ("savedAt", .null)])

def defaultPodcast : JValue :=
  .obj (JObj.ofList [("title", .str ""), ("outline", .str "")])

def defaultRefdata : JValue :=
  .obj (JObj.ofList [("headers", .arr .nil), ("rows", .arr .nil)])

def defaultN8N : JValue :=
  .obj (JObj.ofList [("webhook", .str "")])

def defaultLocks : JValue :=
  .obj (JObj.ofList [("brand", .bool false)])

/-! ## handleRestoreArchive (App.jsx 3462-3542)

Restoring looks the entry up by id (a miss is a silent no-op), seeds the
Session from the entry, fills every bundle cell from `entry.data || {}`
with the per-cell default for falsy fields, marks the entry active and
clears `archiveSyncRef` to null.  `setSnapshot` is the wrapping setter: it
finalizes the previous cell value (evaluated and discarded for a plain
value argument) and stores the finalized new value. -/

def handleRestoreArchive (s : AppState) (entryId : String) :
    Except Unit AppState :=
  match findMatch (fun e => e.id = entryId) s.archives with
  | none => .ok s
  | some entry => do
      let data := jOr entry.data (.obj .nil)
      let _ ← finalizeSnapshot s.snapshotState
      let snapCell ← finalizeSnapshot
        (jOr (jGetOpt data "snapshot") createEmptySnapshotState)
      pure
        { session := ⟨entry.sessionId, entry.startedAt⟩,
          brand := jOr (jGetOpt data "brand") createDefaultBrand,
          contentPreferences :=
            jOr (jGetOpt data "contentPreferences") createDefaultContentPreferences,
          topics := jOr (jGetOpt data "topics") (.arr .nil),
          snapshotState := snapCell,
          snapshotChatMessages :=
            jOr (jGetOpt data "snapshotChatMessages") (.arr .nil),
          article := jOr (jGetOpt data "article") defaultArticle,
          podcast := jOr (jGetOpt data "podcast") defaultPodcast,
          social := jOr (jGetOpt data "social") defaultSocial,
          refdata := jOr (jGetOpt data "refdata") defaultRefdata,
          n8n := jOr (jGetOpt data "n8n") defaultN8N,
          locks := jOr (jGetOpt data "locks") defaultLocks,
          archives := s.archives,
          activeArchiveId := some entry.id,
          archiveSyncRef := none }

/-! ## Continuous archive sync effect (App.jsx 3554-3593)

One run of the effect body.  The returned Bool records whether
`persistSessionToArchive` was called on this run. -/

def archiveSyncStep (s : AppState) (now fresh : String) :
    Except Unit (AppState × Bool) :=
  let aid := s.activeArchiveId.getD ""
  if aid = "" then .ok (s, false)
  else if !(s.archives.any (fun e => e.id = aid)) then .ok (s, false)
  else do
      let payload ← bundleOfState s
      let serialized := stringify payload
      if s.archiveSyncRef = some serialized then pure (s, false)
      else do
        let (_, archivesNext) ←
          persistSessionToArchive s aid (some payload) now fresh
        pure ({ s with archiveSyncRef := some serialized,
                       archives := archivesNext }, true)

/-! ## Session lifecycle (App.jsx 3433-3460) -/

/-- startNewSession: archives the current bundle under the current session
id, clears the active-archive designation and the sync guard, then
installs a fresh session id and start time and resets the brand lock.
`savedNow`/`freshEntry` feed the inner persist call, `startedAt` is the
new-session timestamp and `freshSession` the new `uuid()`. -/
def startNewSession (s : AppState) (savedNow freshEntry startedAt freshSession : String) :
    Except Unit (String × AppState) := do
  let (_, archivesNext) ← persistSessionToArchive s "" none savedNow freshEntry
  pure (freshSession,
    { s with archives := archivesNext,
             activeArchiveId := none,
             archiveSyncRef := none,
             session := ⟨freshSession, startedAt⟩,
             locks := defaultLocks })

/-- ensureSessionId (App.jsx 3457-3460). -/
def ensureSessionId (s : AppState) (savedNow freshEntry startedAt freshSession : String) :
    Except Unit (String × AppState) :=
  if s.session.id ≠ "" then .ok (s.session.id, s)
  else startNewSession s savedNow freshEntry startedAt freshSession

/-! ## Statement-side helpers and concrete inputs used by the theorems -/

/-- Last-wins field lookup; `JObj.spread` realises exactly this on the
fields of the right operand. -/
def JObj.lookupLast : JObj → String → Option JValue
  | .nil, _ => none
  | .cons k v tl, key =>
      match tl.lookupLast key with
      | some r => some r
      | none => if k = key then some v else none

/-- The id strings of the `sections` list of a snapshot value (a non-string
id reads as ""; the normalizer never produces one). -/
def sectionIdsOf (v : JValue) : List String :=
  match jGetOpt v "sections" with
  | .arr xs => xs.toList.map (fun x =>
      match jGetOpt x "id" with
      | .str s => s
      | _ => "")
  | _ => []

/-- A topic record with a non-empty name. -/
def topicAI : JValue := .obj (JObj.ofList [("name", .str "AI")])

/-- A bundle whose only content is one topic named "AI". -/
def bundleAI : JValue :=
  .obj (JObj.ofList [("topics", .arr (JArr.ofList [topicAI]))])

/-- A bundle whose topics list contains a topic with a non-empty name, but
whose first topic has a numeric name. -/
def badFirstTopicBundle : JValue :=
  .obj (JObj.ofList [("topics", .arr (JArr.ofList
    [.obj (JObj.ofList [("name", .num 42)]), topicAI]))])

/-- A component state with every cell at its initial value and an active
session "s1". -/
def baseState : AppState :=
  { session := ⟨"s1", "t1"⟩,
    brand := createDefaultBrand,
    contentPreferences := createDefaultContentPreferences,
    topics := .arr .nil,
    snapshotState := createEmptySnapshotState,
    snapshotChatMessages := .arr .nil,
    article := defaultArticle,
    podcast := defaultPodcast,
    social := defaultSocial,
    refdata := defaultRefdata,
    n8n := defaultN8N,
    locks := defaultLocks,
    archives := [],
    activeArchiveId := none,
    archiveSyncRef := none }

def C6existing : ArchiveEntry :=
  { id := "E1", sessionId := "A", startedAt := "t0", savedAt := "T0",
    title := "Old",
    data := .obj (JObj.ofList [("topics", .arr (JArr.ofList
      [.obj (JObj.ofList [("name", .str "Old")])]))]) }

def C6state : AppState :=
  { baseState with session := ⟨"B", "t1"⟩, archives := [C6existing] }

def finalizedEmptySnapshot : JValue :=
  match finalizeSnapshot createEmptySnapshotState with
  | .ok v => v
  | .error _ => createEmptySnapshotState

/-- A bundle that round-trips through restore and re-bundling: every field
is truthy (so restore keeps it instead of substituting a default), the
snapshot field is a finalize fixed point, and field order matches the
bundle literal. -/
def C4bundle : JValue :=
  .obj (JObj.ofList
    [ ("brand", .bool true),
      ("contentPreferences", .bool true),
      ("topics", .arr (JArr.ofList [topicAI])),
      ("snapshot", finalizedEmptySnapshot),
      ("snapshotChatMessages", .bool true),
      ("article", .bool true),
      ("podcast", .bool true),
      ("social", .bool true),
      ("refdata", .bool true),
      ("n8n", .bool true),
      ("locks", .bool true) ])

def C4entry : ArchiveEntry :=
  { id := "E1", sessionId := "s1", startedAt := "t0", savedAt := "T0",
    title := "AI", data := C4bundle }

def C4state : AppState :=
  { baseState with session := ⟨"s0", "t9"⟩, archives := [C4entry] }

def C4restored : AppState :=
  match handleRestoreArchive C4state "E1" with
  | .ok v => v
  | .error _ => C4state

def C4payload : JValue :=
  match bundleOfState C4restored with
  | .ok v => v
  | .error _ => .null

/-- An entry whose stored snapshot field is not in normalized form, so
re-bundling the restored cells cannot serialize byte-equal to it. -/
def C4cexEntry : ArchiveEntry :=
  { id := "E2", sessionId := "s1", startedAt := "t0", savedAt := "T0",
    title := "AI",
    data := .obj (JObj.ofList
      [ ("brand", .bool true),
        ("contentPreferences", .bool true),
        ("topics", .arr (JArr.ofList [topicAI])),
        ("snapshot", .obj (JObj.ofList [("aiDraft", .str "hello")])),
        ("snapshotChatMessages", .bool true),
        ("article", .bool true),
        ("podcast", .bool true),
        ("social", .bool true),
        ("refdata", .bool true),
        ("n8n", .bool true),
        ("locks", .bool true) ]) }

def C4cexState : AppState :=
  { baseState with session := ⟨"s0", "t9"⟩, archives := [C4cexEntry] }

/-- The store of the §8 example: a session, a brand profile and an old
version marker. -/
def C2store : Store :=
  { items := [ ("contentos.session", "\x7b\"id\":\"s1\"\x7d"),
               ("contentos.brand", "\x7b\"tone\":\"bold\"\x7d"),
               ("contentos.version", "1.0") ],
    available := true }

def C10store : Store :=
  { items := [ ("contentos.session", "\x7b\"id\":\"stale\"\x7d"),
               ("contentos.version", "1.0") ],
    available := false }

def C7store : Store :=
  { items := [ (TOPIC_ARCHIVE_STORAGE_KEY, "[]"),
               ("contentos.brand", "\x7b\"tone\":\"bold\"\x7d"),
               ("contentos.version", "1.9.8"),
               ("unrelated.key", "x") ],
    available := true }

def C3dupRaw : JValue :=
  .obj (JObj.ofList [("sections", .arr (JArr.ofList
    [sectionToJ ("problem", "a"), sectionToJ ("problem", "b")]))])

def C9raw : JValue := .obj (.cons "foo" (.num 1) .nil)

/-- A bundle whose single topic has a whitespace-only name. -/
def C8bundle : JValue :=
  .obj (JObj.ofList [("topics", .arr (JArr.ofList
    [.obj (JObj.ofList [("name", .str "   ")])]))])

/-- A state with no active session. -/
def C5state : AppState :=
  { baseState with session := ⟨"", ""⟩ }

/-- The entry the update branch produces on `C6state`. -/
def C6updated : ArchiveEntry :=
  { id := "E1", sessionId := "B", startedAt := "t1", savedAt := "T2",
    title := "AI", data := bundleAI }

def C4cexRestored : AppState :=
  match handleRestoreArchive C4cexState "E2" with
  | .ok v => v
  | .error _ => C4cexState

def C4cexPayload : JValue :=
  match bundleOfState C4cexRestored with
  | .ok v => v
  | .error _ => .null

def C4cexUpdated : ArchiveEntry :=
  { id := "E2", sessionId := "s1", startedAt := "t0", savedAt := "T9",
    title := "AI", data := C4cexPayload }

/-- A raw snapshot carrying a user reorder: model before problem. -/
def C3reorderRaw : JValue :=
  .obj (JObj.ofList [("sections", .arr (JArr.ofList
    [sectionToJ ("model", "x"), sectionToJ ("problem", "y")]))])

def C3reorderOut : JValue :=
  match normalizeSnapshot C3reorderRaw with
  | .ok v => v
  | .error _ => .null

def C9out : JValue :=
  match normalizeSnapshot C9raw with
  | .ok v => v
  | .error _ => .null

/-- The `baseEntry` the upsert builds when an existing entry was found:
`{...existing, ...baseEntry}` overrides every field, so the update keeps
only `id` from the found entry (and only because the lookup matched it). -/
def updatedArchiveEntry (s : AppState) (entryId : String)
    (existing : ArchiveEntry) (B : JValue) (t now : String) : ArchiveEntry :=
  { id := if entryId ≠ "" then entryId else existing.id,
    sessionId := s.session.id,
    startedAt := s.session.startedAt,
    savedAt := now,
    title := t,
    data := B }

/-- The `baseEntry` the upsert builds when no existing entry was found. -/
def freshlyArchivedEntry (s : AppState) (entryId : String) (B : JValue)
    (t now fresh : String) : ArchiveEntry :=
  { id := if entryId ≠ "" then entryId else fresh,
    sessionId := s.session.id,
    startedAt := s.session.startedAt,
    savedAt := now,
    title := t,
    data := B }

/-! ## Helper lemmas about the store -/

theorem storeLookup_remove (l : List (String × String)) (k k2 : String) :
    storeLookup (storeRemove l k) k2 =
      if k2 = k then none else storeLookup l k2 := by
  induction l with
  | nil => simp [storeRemove, storeLookup]
  | cons hd tl ih =>
    rcases hd with ⟨k0, v0⟩
    by_cases h0 : k0 = k
    · have hrm : storeRemove ((k0, v0) :: tl) k = storeRemove tl k := by
        simp [storeRemove, h0]
      by_cases h2 : k2 = k
      · rw [hrm, ih]
        simp [h2]
      · have hx : ¬ k0 = k2 := fun e => h2 (e.symm.trans h0)
        rw [hrm, ih]
        simp [h2, storeLookup, hx]
    · have hrm : storeRemove ((k0, v0) :: tl) k = (k0, v0) :: storeRemove tl k := by
        simp [storeRemove, h0]
      by_cases h02 : k0 = k2
      · have h2 : ¬ k2 = k := fun e => h0 (h02.trans e)
        rw [hrm]
        simp [storeLookup, h02, h2]
      · rw [hrm]
        simp [storeLookup, h02, ih]

theorem storeLookup_append (a b : List (String × String)) (k : String) :
    storeLookup (a ++ b) k =
      match storeLookup a k with
      | some v => some v
      | none => storeLookup b k := by
  induction a with
  | nil => simp [storeLookup]
  | cons hd tl ih =>
    rcases hd with ⟨k0, v0⟩
    by_cases h0 : k0 = k <;> simp [storeLookup, h0, ih]

theorem Store.get_removeKey (st : Store) (k k2 : String) :
    (st.removeKey k).get k2 = if k2 = k then none else st.get k2 := by
  simp [Store.removeKey, Store.get, storeLookup_remove]

theorem Store.get_setKey (st : Store) (k v : String) (k2 : String) :
    (st.setKey k v).get k2 = if k2 = k then some v else st.get k2 := by
  simp only [Store.setKey, Store.get, storeLookup_append, storeLookup_remove]
  by_cases h2 : k2 = k
  · subst h2
    simp [storeLookup]
  · simp only [if_neg h2]
    have hk : ¬ k = k2 := fun e => h2 e.symm
    cases storeLookup st.items k2 <;> simp [storeLookup, hk]

theorem Store.get_foldl_removeKey (K : List String) (st : Store) (k : String) :
    (K.foldl (fun s kk => s.removeKey kk) st).get k =
      if k ∈ K then none else st.get k := by
  induction K generalizing st with
  | nil => simp
  | cons hd tl ih =>
    simp only [List.foldl_cons, ih, Store.get_removeKey, List.mem_cons]
    by_cases h1 : k ∈ tl
    · simp [h1]
    · by_cases h2 : k = hd <;> simp [h1, h2]

/-- C10: if accessing the durable store throws during boot (storage
disabled or denied), the versioned namespace guard is skipped as a whole —
no session-scoped key is deleted, the version marker is not rewritten, no
reload is triggered — so a version upgrade with failing storage leaves any
previously persisted stale session data in place. -/
theorem C10_guard_skipped_on_storage_failure (appVersion : String)
    (st : Store) (h : st.available = false) :
    versionGuard appVersion st = (st, false) := by
  simp [versionGuard, h]

theorem C10_guard_skipped_on_storage_failure_witness :
    C10store.available = false ∧
    C10store.get "contentos.session" = some "\x7b\"id\":\"stale\"\x7d" ∧
    versionGuard "1.9.8" C10store = (C10store, false) :=
  ⟨by decide, by decide,
    C10_guard_skipped_on_storage_failure "1.9.8" C10store (by decide)⟩

/-- C2: on startup with working storage, a version-marker mismatch deletes
every key in the enumerated session-scoped list, leaves the two
settings-scoped keys unchanged, rewrites the marker to the current
version, and forces a reload exactly when the stored marker was a
non-empty string; when the markers are equal nothing is deleted or
rewritten and no reload happens. -/
theorem C2_version_guard (appVersion : String) (st : Store)
    (hav : st.available = true) :
    (st.get VERSION_STORAGE_KEY ≠ some appVersion →
      (∀ k ∈ LOCAL_STORAGE_KEYS, (versionGuard appVersion st).1.get k = none) ∧
      (∀ k ∈ SETTINGS_STORAGE_KEYS,
        (versionGuard appVersion st).1.get k = st.get k) ∧
      (versionGuard appVersion st).1.get VERSION_STORAGE_KEY = some appVersion ∧
      ((versionGuard appVersion st).2 = true ↔
        ∃ v, st.get VERSION_STORAGE_KEY = some v ∧ v ≠ "")) ∧
    (st.get VERSION_STORAGE_KEY = some appVersion →
      versionGuard appVersion st = (st, false)) := by
  constructor
  · intro hne
    have hg : versionGuard appVersion st =
        ((LOCAL_STORAGE_KEYS.foldl (fun s k => s.removeKey k) st).setKey
            VERSION_STORAGE_KEY appVersion,
          jTruthy (match st.get VERSION_STORAGE_KEY with
            | some s => JValue.str s
            | none => JValue.null)) := by
      simp [versionGuard, hav, hne]
    have hlocal : ∀ k ∈ LOCAL_STORAGE_KEYS, ¬ k = VERSION_STORAGE_KEY := by
      decide
    have hsettings : ∀ k ∈ SETTINGS_STORAGE_KEYS,
        ¬ k = VERSION_STORAGE_KEY ∧ k ∉ LOCAL_STORAGE_KEYS := by
      decide
    refine ⟨?_, ?_, ?_, ?_⟩
    · intro k hk
      rw [hg]
      simp only [Store.get_setKey, if_neg (hlocal k hk),
        Store.get_foldl_removeKey, if_pos hk]
    · intro k hk
      rw [hg]
      simp only [Store.get_setKey, if_neg (hsettings k hk).1,
        Store.get_foldl_removeKey, if_neg (hsettings k hk).2]
    · rw [hg]
      simp [Store.get_setKey]
    · rw [hg]
      cases hv : st.get VERSION_STORAGE_KEY with
      | none => simp [jTruthy]
      | some v =>
        simp only [jTruthy]
        constructor
        · intro hb
          exact ⟨v, rfl, by simpa using hb⟩
        · rintro ⟨w, hw, hne2⟩
          cases hw
          simpa using hne2
  · intro heq
    simp [versionGuard, hav, heq]

theorem C2_version_guard_witness :
    C2store.get VERSION_STORAGE_KEY ≠ some "1.1" ∧
    (versionGuard "1.1" C2store).1.get "contentos.session" = none ∧
    (versionGuard "1.1" C2store).1.get "contentos.brand" =
      some "\x7b\"tone\":\"bold\"\x7d" ∧
    (versionGuard "1.1" C2store).1.get VERSION_STORAGE_KEY = some "1.1" ∧
    (versionGuard "1.1" C2store).2 = true := by
  have h := (C2_version_guard "1.1" C2store rfl).1 (by decide)
  refine ⟨by decide, h.1 "contentos.session" (by decide), ?_, h.2.2.1,
    h.2.2.2.mpr ⟨"1.0", by decide, by decide⟩⟩
  rw [h.2.1 "contentos.brand" (by decide)]
  decide

theorem Store.get_eq_none_of_not_mem_keys (st : Store) (k : String)
    (h : k ∉ st.keys) : st.get k = none := by
  rcases st with ⟨items, av⟩
  simp only [Store.keys] at h
  simp only [Store.get]
  induction items with
  | nil => simp [storeLookup]
  | cons hd tl ih =>
    rcases hd with ⟨k0, v0⟩
    simp only [List.map_cons, List.mem_cons] at h
    push_neg at h
    have hne : ¬ k0 = k := fun e => h.1 e.symm
    simp [storeLookup, hne, ih h.2]

/-- C7 counterexample: resetSession deletes the persisted archive list key
(and the version marker), contradicting the claim that the archive key's
stored value is unchanged and that only the enumerated session-scoped
keys are deleted. -/
theorem C7_reset_deletes_archive_key :
    C7store.get TOPIC_ARCHIVE_STORAGE_KEY = some "[]" ∧
    (resetSessionSweep C7store).get TOPIC_ARCHIVE_STORAGE_KEY = none ∧
    C7store.get VERSION_STORAGE_KEY = some "1.9.8" ∧
    (resetSessionSweep C7store).get VERSION_STORAGE_KEY = none := by
  decide

/-- C7 amended: the resetSession storage sweep deletes exactly the stored
keys that start with "contentos." and are not one of the two
settings-scoped keys — this includes the persisted archive list key and
the version marker — and leaves every other key (the settings keys and
keys outside the namespace) unchanged. -/
theorem C7_reset_sweep_storage (st : Store) (hav : st.available = true)
    (k : String) :
    ((strStartsWith k "contentos." = true ∧ k ∉ SETTINGS_STORAGE_KEYS) →
        (resetSessionSweep st).get k = none) ∧
    (¬(strStartsWith k "contentos." = true ∧ k ∉ SETTINGS_STORAGE_KEYS) →
        (resetSessionSweep st).get k = st.get k) := by
  have hru : resetSessionSweep st =
      (st.keys.filter (fun k2 => strStartsWith k2 "contentos." &&
        !(SETTINGS_STORAGE_KEYS.contains k2))).foldl
        (fun s kk => s.removeKey kk) st := by
    simp [resetSessionSweep, hav]
  constructor
  · rintro ⟨hpre, hset⟩
    rw [hru, Store.get_foldl_removeKey]
    by_cases hkmem : k ∈ st.keys
    · rw [if_pos]
      refine List.mem_filter.mpr ⟨hkmem, ?_⟩
      simp [hpre, hset]
    · rw [if_neg]
      · exact Store.get_eq_none_of_not_mem_keys st k hkmem
      · intro hmem
        exact hkmem (List.mem_filter.mp hmem).1
  · intro hnot
    rw [hru, Store.get_foldl_removeKey, if_neg]
    intro hmem
    rcases List.mem_filter.mp hmem with ⟨_, hp⟩
    simp only [Bool.and_eq_true, Bool.not_eq_true'] at hp
    refine hnot ⟨hp.1, ?_⟩
    intro hks
    have : SETTINGS_STORAGE_KEYS.contains k = true := by
      exact List.elem_eq_true_of_mem hks
    rw [this] at hp
    exact Bool.true_eq_false.mp hp.2

theorem C7_reset_sweep_storage_witness :
    (resetSessionSweep C7store).get TOPIC_ARCHIVE_STORAGE_KEY = none ∧
    (resetSessionSweep C7store).get "contentos.brand" =
      C7store.get "contentos.brand" ∧
    (resetSessionSweep C7store).get "unrelated.key" =
      C7store.get "unrelated.key" :=
  ⟨(C7_reset_sweep_storage C7store rfl TOPIC_ARCHIVE_STORAGE_KEY).1
      ⟨by decide, by decide⟩,
    (C7_reset_sweep_storage C7store rfl "contentos.brand").2 (by decide),
    (C7_reset_sweep_storage C7store rfl "unrelated.key").2 (by decide)⟩

theorem exceptOkBind {α β : Type} (a : α) (f : α → Except Unit β) :
    (Except.ok a : Except Unit α) >>= f = f a := rfl

/-- C8: for every truthy bundle in which no element of the topics list has
a non-empty (non-whitespace) name, the archive upsert returns null and the
archive list is exactly unchanged. -/
theorem C8_topicless_upsert_refused (s : AppState) (entryId : String)
    (B : JValue) (now fresh : String) (hB : jTruthy B = true)
    (h : hasTopicIn (topicListOf B) = false) :
    persistSessionToArchive s entryId (some B) now fresh =
      .ok (none, s.archives) := by
  by_cases hid : s.session.id = "" <;>
    simp [persistSessionToArchive, hid, hB, h, pure, Except.pure, exceptOkBind]

theorem C8_topicless_upsert_refused_witness :
    jTruthy C8bundle = true ∧ hasTopicIn (topicListOf C8bundle) = false ∧
    persistSessionToArchive baseState "e1" (some C8bundle) "T1" "f1" =
      .ok (none, baseState.archives) :=
  ⟨by decide, by decide,
    C8_topicless_upsert_refused baseState "e1" C8bundle "T1" "f1"
      (by decide) (by decide)⟩

/-- C5: with no active session (empty id), two consecutive calls to
ensureSessionId return the same freshly generated id and only the first
creates a session: the second call returns the state unchanged. -/
theorem C5_ensure_session_id (s : AppState) (a b c d a2 b2 c2 d2 : String)
    (h : s.session.id = "") (hd : d ≠ "") :
    ensureSessionId s a b c d =
      .ok (d, { s with
                session := ⟨d, c⟩,
                activeArchiveId := none,
                archiveSyncRef := none,
                locks := defaultLocks }) ∧
    ensureSessionId { s with
        session := ⟨d, c⟩,
        activeArchiveId := none,
        archiveSyncRef := none,
        locks := defaultLocks } a2 b2 c2 d2 =
      .ok (d, { s with
                session := ⟨d, c⟩,
                activeArchiveId := none,
                archiveSyncRef := none,
                locks := defaultLocks }) := by
  constructor
  · simp [ensureSessionId, h, startNewSession, persistSessionToArchive,
      pure, Except.pure, exceptOkBind]
  · simp [ensureSessionId, hd]

theorem C5_ensure_session_id_witness :
    C5state.session.id = "" ∧
    ensureSessionId C5state "T1" "f1" "t2" "sid2" =
      .ok ("sid2", { C5state with
            session := ⟨"sid2", "t2"⟩,
            activeArchiveId := none,
            archiveSyncRef := none,
            locks := defaultLocks }) ∧
    ensureSessionId { C5state with
        session := ⟨"sid2", "t2"⟩,
        activeArchiveId := none,
        archiveSyncRef := none,
        locks := defaultLocks } "T3" "f3" "t4" "sid4" =
      .ok ("sid2", { C5state with
            session := ⟨"sid2", "t2"⟩,
            activeArchiveId := none,
            archiveSyncRef := none,
            locks := defaultLocks }) :=
  ⟨by decide,
    (C5_ensure_session_id C5state "T1" "f1" "t2" "sid2" "T3" "f3" "t4" "sid4"
      (by decide) (by decide)).1,
    (C5_ensure_session_id C5state "T1" "f1" "t2" "sid2" "T3" "f3" "t4" "sid4"
      (by decide) (by decide)).2⟩

/-! ## Helper lemmas about the archive upsert -/

theorem findMatch_pred_true {p : ArchiveEntry → Bool} :
    ∀ {l : List ArchiveEntry} {e : ArchiveEntry},
      findMatch p l = some e → p e = true := by
  intro l
  induction l with
  | nil => intro e h; simp [findMatch] at h
  | cons hd tl ih =>
    intro e h
    by_cases hp : p hd
    · simp [findMatch, hp] at h
      rw [← h]
      exact hp
    · simp [findMatch, hp] at h
      exact ih h

theorem findMatch_any {p : ArchiveEntry → Bool} :
    ∀ {l : List ArchiveEntry} {e : ArchiveEntry},
      findMatch p l = some e → l.any p = true := by
  intro l
  induction l with
  | nil => intro e h; simp [findMatch] at h
  | cons hd tl ih =>
    intro e h
    by_cases hp : p hd
    · simp [List.any_cons, hp]
    · simp [findMatch, hp] at h
      simp [List.any_cons, ih h]

theorem findMatch_congr {p q : ArchiveEntry → Bool}
    (h : ∀ e, p e = q e) :
    ∀ l : List ArchiveEntry, findMatch p l = findMatch q l := by
  intro l
  induction l with
  | nil => rfl
  | cons hd tl ih => simp [findMatch, h hd, ih]

theorem findMatch_replaceMatch {p : ArchiveEntry → Bool} {u : ArchiveEntry}
    (hu : p u = true) :
    ∀ {l : List ArchiveEntry} {e : ArchiveEntry},
      findMatch p l = some e →
      findMatch p (replaceMatch p u l) = some u := by
  intro l
  induction l with
  | nil => intro e h; simp [findMatch] at h
  | cons hd tl ih =>
    intro e h
    by_cases hp : p hd
    · simp [replaceMatch, hp, findMatch, hu]
    · simp [findMatch, hp] at h
      simp [replaceMatch, hp, findMatch, ih h]

theorem matchPred_updatedArchiveEntry (s : AppState) (entryId : String)
    (existing : ArchiveEntry) (B : JValue) (t now : String) :
    matchPred entryId s.session.id
      (updatedArchiveEntry s entryId existing B t now) = true := by
  by_cases he : entryId = "" <;>
    simp [matchPred, updatedArchiveEntry, he]

theorem matchPred_freshlyArchivedEntry (s : AppState) (entryId : String)
    (B : JValue) (t now fresh : String) :
    matchPred entryId s.session.id
      (freshlyArchivedEntry s entryId B t now fresh) = true := by
  by_cases he : entryId = "" <;>
    simp [matchPred, freshlyArchivedEntry, he]

/-- Unfolding of the upsert when a session exists, the override bundle is
truthy, a topic name is present and the title computation succeeds. -/
theorem persist_unfold (s : AppState) (entryId : String) (B : JValue)
    (now fresh : String) (hsid : ¬ s.session.id = "")
    (hB : jTruthy B = true) (htop : hasTopicIn (topicListOf B) = true)
    (t : String) (htitle : titleOf (topicListOf B) = .ok t) :
    persistSessionToArchive s entryId (some B) now fresh =
      (match findMatch (matchPred entryId s.session.id) s.archives with
       | some existing =>
          if stringify existing.data = stringify B ∧ existing.title = t then
            .ok (some existing, s.archives)
          else
            .ok (some (updatedArchiveEntry s entryId existing B t now),
              replaceMatch (matchPred entryId s.session.id)
                (updatedArchiveEntry s entryId existing B t now) s.archives)
       | none =>
          .ok (some (freshlyArchivedEntry s entryId B t now fresh),
            freshlyArchivedEntry s entryId B t now fresh :: s.archives)) := by
  simp only [persistSessionToArchive, hsid, if_neg, ite_false]
  simp [hB, htop, htitle, exceptOkBind, updatedArchiveEntry,
    freshlyArchivedEntry, pure, Except.pure]

/-- C1 amended: for every bundle whose topics list contains a topic with a
non-empty name and whose first topic does not make the title computation
throw (its name is a string, null/undefined or absent), calling the
archive upsert twice with a byte-identical bundle and the same
sessionId/entryId leaves a single matched archive entry whose savedAt is
unchanged after the second call, and the archive list after the second
call equals the list after the first call. -/
theorem C1_upsert_idempotent (s : AppState) (entryId : String) (B : JValue)
    (now1 f1 now2 f2 : String) (hsid : ¬ s.session.id = "")
    (hB : jTruthy B = true) (htop : hasTopicIn (topicListOf B) = true)
    (t : String) (htitle : titleOf (topicListOf B) = .ok t) :
    ∃ r1 A1,
      persistSessionToArchive s entryId (some B) now1 f1 = .ok (some r1, A1) ∧
      persistSessionToArchive { s with archives := A1 } entryId (some B)
        now2 f2 = .ok (some r1, A1) ∧
      stringify r1.data = stringify B ∧ r1.title = t ∧
      findMatch (matchPred entryId s.session.id) A1 = some r1 ∧
      (s.archives = [] → A1 = [r1]) := by
  rcases s with ⟨sess, cb, cp, ct, cs, cm, ca, cpo, cso, cr, cn, cl, arch, aid, ref⟩
  have h1 := persist_unfold
    ⟨sess, cb, cp, ct, cs, cm, ca, cpo, cso, cr, cn, cl, arch, aid, ref⟩
    entryId B now1 f1 hsid hB htop t htitle
  cases hfind : findMatch (matchPred entryId sess.id) arch with
  | some existing =>
    by_cases hsame : stringify existing.data = stringify B ∧ existing.title = t
    · refine ⟨existing, arch, ?_, ?_, hsame.1, hsame.2, hfind, ?_⟩
      · rw [h1]
        simp only [hfind]
        rw [if_pos hsame]
      · have h2 := persist_unfold
          ⟨sess, cb, cp, ct, cs, cm, ca, cpo, cso, cr, cn, cl, arch, aid, ref⟩
          entryId B now2 f2 hsid hB htop t htitle
        rw [h2]
        simp only [hfind]
        rw [if_pos hsame]
      · intro he
        subst he
        simp [findMatch] at hfind
    · set u := updatedArchiveEntry
        ⟨sess, cb, cp, ct, cs, cm, ca, cpo, cso, cr, cn, cl, arch, aid, ref⟩
        entryId existing B t now1 with hu
      have hpu : matchPred entryId sess.id u = true :=
        matchPred_updatedArchiveEntry _ entryId existing B t now1
      have hfind2 : findMatch (matchPred entryId sess.id)
          (replaceMatch (matchPred entryId sess.id) u arch) = some u :=
        findMatch_replaceMatch hpu hfind
      refine ⟨u, replaceMatch (matchPred entryId sess.id) u arch,
        ?_, ?_, by simp [hu, updatedArchiveEntry], by simp [hu, updatedArchiveEntry],
        hfind2, ?_⟩
      · rw [h1]
        simp only [hfind]
        rw [if_neg hsame]
      · have h2 := persist_unfold
          ⟨sess, cb, cp, ct, cs, cm, ca, cpo, cso, cr, cn, cl,
            replaceMatch (matchPred entryId sess.id) u arch, aid, ref⟩
          entryId B now2 f2 hsid hB htop t htitle
        rw [h2]
        simp only [hfind2]
        rw [if_pos ⟨by simp [hu, updatedArchiveEntry], by simp [hu, updatedArchiveEntry]⟩]
      · intro he
        subst he
        simp [findMatch] at hfind
  | none =>
    set u := freshlyArchivedEntry
      ⟨sess, cb, cp, ct, cs, cm, ca, cpo, cso, cr, cn, cl, arch, aid, ref⟩
      entryId B t now1 f1 with hu
    have hpu : matchPred entryId sess.id u = true :=
      matchPred_freshlyArchivedEntry _ entryId B t now1 f1
    have hfind2 : findMatch (matchPred entryId sess.id) (u :: arch) = some u := by
      simp [findMatch, hpu]
    refine ⟨u, u :: arch, ?_, ?_,
      by simp [hu, freshlyArchivedEntry], by simp [hu, freshlyArchivedEntry],
      hfind2, ?_⟩
    · rw [h1]
      simp only [hfind]
    · have h2 := persist_unfold
        ⟨sess, cb, cp, ct, cs, cm, ca, cpo, cso, cr, cn, cl,
          u :: arch, aid, ref⟩
        entryId B now2 f2 hsid hB htop t htitle
      rw [h2]
      simp only [hfind2]
      rw [if_pos ⟨by simp [hu, freshlyArchivedEntry], by simp [hu, freshlyArchivedEntry]⟩]
    · intro he
      have harch : arch = [] := he
      subst harch
      rfl

theorem C1_upsert_idempotent_witness :
    (¬ baseState.session.id = "") ∧
    jTruthy bundleAI = true ∧
    hasTopicIn (topicListOf bundleAI) = true ∧
    titleOf (topicListOf bundleAI) = .ok "AI" ∧
    ∃ r1 A1,
      persistSessionToArchive baseState "" (some bundleAI) "T1" "f1" =
        .ok (some r1, A1) ∧
      persistSessionToArchive { baseState with archives := A1 } ""
        (some bundleAI) "T2" "f2" = .ok (some r1, A1) ∧
      stringify r1.data = stringify bundleAI ∧ r1.title = "AI" ∧
      findMatch (matchPred "" baseState.session.id) A1 = some r1 ∧
      (baseState.archives = [] → A1 = [r1]) :=
  ⟨by decide, by decide, by decide, by decide,
    C1_upsert_idempotent baseState "" bundleAI "T1" "f1" "T2" "f2"
      (by decide) (by decide) (by decide) "AI" (by decide)⟩

/-- C1 counterexample: a bundle whose topics list does contain a topic
with a non-empty name ("AI"), but whose first topic has a numeric name.
The title computation `topicList[0]?.name?.trim()` throws a TypeError, so
the upsert archives nothing at all — calling it (twice) on an empty
archive list leaves no archive entry, contrary to the claim. -/
theorem C1_upsert_throws_counterexample :
    hasTopicIn (topicListOf badFirstTopicBundle) = true ∧
    persistSessionToArchive baseState "" (some badFirstTopicBundle)
      "T1" "f1" = .error () := by
  decide

/-- C6 counterexample: the update branch does not keep sessionId and
startedAt from the matched entry — it takes them from the current
in-memory session.  Matching entry E1 has sessionId "A" and startedAt
"t0"; the current session is ("B", "t1"); after the upsert the stored
entry carries "B"/"t1". -/
theorem C6_update_overwrites_session_fields :
    persistSessionToArchive C6state "E1" (some bundleAI) "T2" "f2" =
      .ok (some C6updated, [C6updated]) ∧
    C6updated.sessionId ≠ C6existing.sessionId ∧
    C6updated.startedAt ≠ C6existing.startedAt := by
  decide

/-- C6 amended: when the upsert finds an existing entry and the new bundle
differs (by serialization or title), the updated entry has the new data,
new title and savedAt = now, keeps id equal to the existing entry's id,
and takes sessionId and startedAt from the current in-memory session (not
from the matched entry). -/
theorem C6_update_branch_fields (s : AppState) (entryId : String)
    (B : JValue) (now fresh : String) (existing : ArchiveEntry) (t : String)
    (hsid : ¬ s.session.id = "") (hB : jTruthy B = true)
    (htop : hasTopicIn (topicListOf B) = true)
    (htitle : titleOf (topicListOf B) = .ok t)
    (hfind : findMatch (matchPred entryId s.session.id) s.archives =
      some existing)
    (hdiff : ¬(stringify existing.data = stringify B ∧ existing.title = t)) :
    ∃ u, persistSessionToArchive s entryId (some B) now fresh =
        .ok (some u,
          replaceMatch (matchPred entryId s.session.id) u s.archives) ∧
      u.data = B ∧ u.title = t ∧ u.savedAt = now ∧
      u.id = existing.id ∧ u.sessionId = s.session.id ∧
      u.startedAt = s.session.startedAt := by
  refine ⟨updatedArchiveEntry s entryId existing B t now, ?_, rfl, rfl, rfl,
    ?_, rfl, rfl⟩
  · rw [persist_unfold s entryId B now fresh hsid hB htop t htitle]
    simp only [hfind]
    rw [if_neg hdiff]
  · by_cases he : entryId = ""
    · simp [updatedArchiveEntry, he]
    · have hp := findMatch_pred_true hfind
      simp only [matchPred, if_pos, he] at hp
      simp only [updatedArchiveEntry, he]
      have : existing.id = entryId := by
        simpa [matchPred, he] using hp
      simp [this]

theorem C6_update_branch_fields_witness :
    (¬ C6state.session.id = "") ∧
    findMatch (matchPred "E1" C6state.session.id) C6state.archives =
      some C6existing ∧
    ¬(stringify C6existing.data = stringify bundleAI ∧
      C6existing.title = "AI") ∧
    ∃ u, persistSessionToArchive C6state "E1" (some bundleAI) "T2" "f2" =
        .ok (some u,
          replaceMatch (matchPred "E1" C6state.session.id) u C6state.archives) ∧
      u.data = bundleAI ∧ u.title = "AI" ∧ u.savedAt = "T2" ∧
      u.id = C6existing.id ∧ u.sessionId = C6state.session.id ∧
      u.startedAt = C6state.session.startedAt :=
  ⟨by decide, by decide, by decide,
    C6_update_branch_fields C6state "E1" bundleAI "T2" "f2" C6existing "AI"
      (by decide) (by decide) (by decide) (by decide) (by decide) (by decide)⟩

/-! ## Helper lemmas about objects and the snapshot normalizer -/

theorem JObj.lookup_set : ∀ (o : JObj) (k : String) (v : JValue) (k2 : String),
    (o.set k v).lookup k2 = if k2 = k then some v else o.lookup k2
  | .nil, k, v, k2 => by
    by_cases h2 : k2 = k <;> simp [JObj.set, JObj.lookup, h2]
    exact fun e => h2 e.symm
  | .cons k0 v0 tl, k, v, k2 => by
    have ih := JObj.lookup_set tl k v k2
    by_cases h0 : k0 = k
    · by_cases h2 : k2 = k
      · simp [JObj.set, JObj.lookup, h0, h2]
      · have hx : ¬ k0 = k2 := fun e => h2 (e.symm.trans h0)
        have hk2 : ¬ k = k2 := fun e => hx (h0.trans e)
        simp [JObj.set, JObj.lookup, h0, h2, hx, hk2]
    · by_cases h02 : k0 = k2
      · have h2 : ¬ k2 = k := fun e => h0 (h02.trans e)
        simp [JObj.set, JObj.lookup, h0, h02, h2]
      · simp [JObj.set, JObj.lookup, h0, h02, ih]

theorem JObj.lookup_spread : ∀ (b : JObj) (a : JObj) (k : String),
    (a.spread b).lookup k =
      match b.lookupLast k with
      | some v => some v
      | none => a.lookup k
  | .nil, a, k => by simp [JObj.spread, JObj.lookupLast]
  | .cons k0 v0 tl, a, k => by
    have ih := JObj.lookup_spread tl (a.set k0 v0) k
    simp only [JObj.spread, ih, JObj.lookupLast]
    cases htl : tl.lookupLast k with
    | some r => simp
    | none =>
      simp only [JObj.lookup_set]
      by_cases h0 : k0 = k
      · simp [h0]
      · have hne : ¬ k = k0 := fun e => h0 e.symm
        simp [h0, hne]

theorem JArr.toList_ofList (l : List JValue) : (JArr.ofList l).toList = l := by
  induction l with
  | nil => rfl
  | cons hd tl ih => simp [JArr.ofList, JArr.toList, ih]

theorem sectionIds_extract (l : List (String × String)) :
    (l.map sectionToJ).map (fun x =>
      match jGetOpt x "id" with
      | .str s => s
      | _ => "") = l.map (fun p => p.1) := by
  induction l with
  | nil => rfl
  | cons hd tl ih => simp [sectionToJ, jGetOpt, jGet, JObj.lookup, ih]

theorem find_keyed_of_mem (g : SectionDef → String → String) :
    ∀ (l : List SectionDef) (i : String), i ∈ l.map (fun d => d.id) →
      ∃ c, (l.map (fun d => (d.id, g d d.id))).find?
        (fun s => s.1 = i) = some (i, c) := by
  intro l
  induction l with
  | nil => intro i hi; simp at hi
  | cons d tl ih =>
    intro i hi
    by_cases hd : d.id = i
    · exact ⟨g d d.id, by simp [List.find?, hd]⟩
    · have : i ∈ tl.map (fun d => d.id) := by
        simp only [List.map_cons, List.mem_cons] at hi
        rcases hi with h | h
        · exact absurd h.symm hd
        · exact h
      rcases ih i this with ⟨c, hc⟩
      exact ⟨c, by simp [List.find?, hd, hc]⟩

theorem filterMap_find_map_fst (base : List (String × String)) :
    ∀ ids : List String,
      (∀ i ∈ ids, ∃ c, base.find? (fun s => s.1 = i) = some (i, c)) →
      (ids.filterMap (fun i => base.find? (fun s => s.1 = i))).map
        (fun p => p.1) = ids := by
  intro ids
  induction ids with
  | nil => intro _; rfl
  | cons hd tl ih =>
    intro h
    rcases h hd (by simp) with ⟨c, hc⟩
    have htl := ih (fun i hi => h i (by simp [hi]))
    simp [List.filterMap_cons, hc, htl]

theorem map_fst_filter_keyed (g : SectionDef → String) (q : String → Bool) :
    ∀ l : List SectionDef,
      ((l.map (fun d => (d.id, g d))).filter (fun s => q s.1)).map
        (fun p => p.1) = (l.map (fun d => d.id)).filter q := by
  intro l
  induction l with
  | nil => rfl
  | cons d tl ih =>
    by_cases hq : q d.id <;> simp [List.filter_cons, hq, ih]

theorem filterCanon_mem : ∀ (l : List (JValue × String)) (p : String × String),
    p ∈ filterCanonSections l → p.1 ∈ SNAPSHOT_SECTION_IDS
  | [], p, h => by simp [filterCanonSections] at h
  | (.str s, c) :: tl, p, h => by
    by_cases hs : s ∈ SNAPSHOT_SECTION_IDS
    · have hc : SNAPSHOT_SECTION_IDS.contains s = true :=
        List.elem_eq_true_of_mem hs
      rw [show filterCanonSections ((JValue.str s, c) :: tl) =
          (s, c) :: filterCanonSections tl from by
            simp [filterCanonSections, hc, hs]] at h
      rcases List.mem_cons.mp h with h | h
      · rw [h]
        exact hs
      · exact filterCanon_mem tl p h
    · have hc : SNAPSHOT_SECTION_IDS.contains s = false := by
        cases hcc : SNAPSHOT_SECTION_IDS.contains s
        · rfl
        · exact absurd (List.mem_of_elem_eq_true hcc) hs
      rw [show filterCanonSections ((JValue.str s, c) :: tl) =
          filterCanonSections tl from by
            simp [filterCanonSections, hc, hs]] at h
      exact filterCanon_mem tl p h
  | (.null, c) :: tl, p, h => filterCanon_mem tl p h
  | (.undefined, c) :: tl, p, h => filterCanon_mem tl p h
  | (.bool b, c) :: tl, p, h => filterCanon_mem tl p h
  | (.num n, c) :: tl, p, h => filterCanon_mem tl p h
  | (.arr a, c) :: tl, p, h => filterCanon_mem tl p h
  | (.obj o, c) :: tl, p, h => filterCanon_mem tl p h

theorem rawSectionsOf_mem (raw : JValue) (rawS : List (String × String))
    (hraw : rawSectionsOf raw = .ok rawS) :
    ∀ p ∈ rawS, p.1 ∈ SNAPSHOT_SECTION_IDS := by
  intro p hp
  unfold rawSectionsOf at hraw
  cases hshape : jGetOpt raw "sections" <;> rw [hshape] at hraw
  case arr xs =>
    have hraw2 : (mapRawSections xs.toList >>= fun mapped =>
        pure (filterCanonSections mapped)) = Except.ok rawS := hraw
    cases hm : mapRawSections xs.toList with
    | error e =>
      rw [hm] at hraw2
      simp [Bind.bind, Except.bind] at hraw2
    | ok mapped =>
      rw [hm] at hraw2
      simp only [exceptOkBind, pure, Except.pure, Except.ok.injEq] at hraw2
      rw [← hraw2] at hp
      exact filterCanon_mem mapped p hp
  all_goals (
    have h0 : (Except.ok [] : Except Unit (List (String × String))) =
        Except.ok rawS := hraw
    simp only [Except.ok.injEq] at h0
    rw [← h0] at hp
    simp at hp)


theorem sectionIdsOf_obj_set (A : JObj) (l : List (String × String))
    (D : JValue) :
    sectionIdsOf (.obj ((A.set "sections" (sectionsToJ l)).set "aiDraft" D)) =
      l.map (fun p => p.1) := by
  have hne : ¬ ("sections" : String) = "aiDraft" := by decide
  simp only [sectionIdsOf, jGetOpt, jGet, JObj.lookup_set, if_neg hne,
    if_pos, sectionsToJ, Option.getD_some, JArr.toList_ofList]
  exact sectionIds_extract l

theorem normalizeSnapshot_sectionIds : ∀ (raw out : JValue)
    (rawS : List (String × String)),
    normalizeSnapshot raw = .ok out → rawSectionsOf raw = .ok rawS →
    sectionIdsOf out = (orderedSectionsOf rawS).map (fun p => p.1)
  | .obj fs, out, rawS, h, hraw => by
    simp only [normalizeSnapshot] at h
    rw [hraw] at h
    simp only [exceptOkBind, pure, Except.pure, Except.ok.injEq] at h
    rw [← h]
    exact sectionIdsOf_obj_set _ _ _
  | .arr xs, out, rawS, h, hraw => by
    simp only [normalizeSnapshot] at h
    rw [hraw] at h
    simp only [exceptOkBind, pure, Except.pure, Except.ok.injEq] at h
    rw [← h]
    exact sectionIdsOf_obj_set _ _ _
  | .null, out, rawS, h, hraw => by
    have h2 : createEmptySnapshotState = out := by
      simpa [normalizeSnapshot] using h
    have hr2 : ([] : List (String × String)) = rawS := by
      simpa [rawSectionsOf, jGetOpt, jGet] using hraw
    rw [← h2, ← hr2]
    decide
  | .undefined, out, rawS, h, hraw => by
    have h2 : createEmptySnapshotState = out := by
      simpa [normalizeSnapshot] using h
    have hr2 : ([] : List (String × String)) = rawS := by
      simpa [rawSectionsOf, jGetOpt, jGet] using hraw
    rw [← h2, ← hr2]
    decide
  | .bool b, out, rawS, h, hraw => by
    have h2 : createEmptySnapshotState = out := by
      simpa [normalizeSnapshot] using h
    have hr2 : ([] : List (String × String)) = rawS := by
      simpa [rawSectionsOf, jGetOpt, jGet] using hraw
    rw [← h2, ← hr2]
    decide
  | .num n, out, rawS, h, hraw => by
    have h2 : createEmptySnapshotState = out := by
      simpa [normalizeSnapshot] using h
    have hr2 : ([] : List (String × String)) = rawS := by
      simpa [rawSectionsOf, jGetOpt, jGet] using hraw
    rw [← h2, ← hr2]
    decide
  | .str s, out, rawS, h, hraw => by
    have h2 : createEmptySnapshotState = out := by
      simpa [normalizeSnapshot] using h
    have hr2 : ([] : List (String × String)) = rawS := by
      simpa [rawSectionsOf, jGetOpt, jGet] using hraw
    rw [← h2, ← hr2]
    decide

theorem orderedSections_map_fst (rawS : List (String × String))
    (hmem : ∀ p ∈ rawS, p.1 ∈ SNAPSHOT_SECTION_IDS) :
    (orderedSectionsOf rawS).map (fun p => p.1) =
      rawS.map (fun p => p.1) ++
        SNAPSHOT_SECTION_IDS.filter
          (fun i => !((rawS.map (fun p => p.1)).contains i)) := by
  unfold orderedSectionsOf
  rw [List.map_append]
  congr 1
  · apply filterMap_find_map_fst
    intro i hi
    rcases List.mem_map.mp hi with ⟨p, hp, rfl⟩
    exact find_keyed_of_mem (fun d i => (lookupLast rawS i).getD "")
      SNAPSHOT_SECTION_DEFINITIONS p.1 (hmem p hp)
  · exact map_fst_filter_keyed (fun d => (lookupLast rawS d.id).getD "")
      (fun i => !((rawS.map (fun p => p.1)).contains i))
      SNAPSHOT_SECTION_DEFINITIONS

/-- C3 amended: whenever normalization completes (no null/undefined
section items) and the filtered raw section list has no duplicate ids, the
sections of normalize(raw) contain each of the six canonical ids exactly
once — no more, no fewer, no duplicates — ordered by first appearance in
the filtered raw list with absent canonical ids appended in default
definition order.  (With duplicate ids in the raw list the duplicated id
appears once per occurrence; see the counterexample.) -/
theorem C3_normalize_sections (raw out : JValue)
    (rawS : List (String × String))
    (h : normalizeSnapshot raw = .ok out)
    (hraw : rawSectionsOf raw = .ok rawS)
    (hnd : (rawS.map (fun p => p.1)).Nodup) :
    sectionIdsOf out =
      rawS.map (fun p => p.1) ++
        SNAPSHOT_SECTION_IDS.filter
          (fun i => !((rawS.map (fun p => p.1)).contains i)) ∧
    (sectionIdsOf out).Nodup ∧
    (∀ i, i ∈ sectionIdsOf out ↔ i ∈ SNAPSHOT_SECTION_IDS) := by
  have hmem := rawSectionsOf_mem raw rawS hraw
  have heq := (normalizeSnapshot_sectionIds raw out rawS h hraw).trans
    (orderedSections_map_fst rawS hmem)
  have hsub : ∀ i ∈ rawS.map (fun p => p.1), i ∈ SNAPSHOT_SECTION_IDS := by
    intro i hi
    rcases List.mem_map.mp hi with ⟨p, hp, rfl⟩
    exact hmem p hp
  have hsixnd : SNAPSHOT_SECTION_IDS.Nodup := by decide
  refine ⟨heq, ?_, ?_⟩
  · rw [heq]
    apply List.Nodup.append hnd (hsixnd.filter _)
    intro a ha hb
    rcases List.mem_filter.mp hb with ⟨_, hpb⟩
    rw [Bool.not_eq_true'] at hpb
    have hel := List.elem_eq_true_of_mem ha
    rw [List.contains] at hpb
    rw [hel] at hpb
    exact Bool.true_eq_false.mp hpb
  · intro i
    rw [heq]
    simp only [List.mem_append, List.mem_filter]
    constructor
    · rintro (hi | ⟨hi, _⟩)
      · exact hsub i hi
      · exact hi
    · intro hi
      by_cases hr : i ∈ rawS.map (fun p => p.1)
      · exact Or.inl hr
      · refine Or.inr ⟨hi, ?_⟩
        have hc0 : (rawS.map (fun p => p.1)).contains i = false := by
          cases hc : (rawS.map (fun p => p.1)).contains i
          · rfl
          · exact absurd (List.mem_of_elem_eq_true hc) hr
        rw [hc0]
        rfl

/-- C3 counterexample: a raw value whose section list repeats the id
"problem" produces seven sections, with "problem" twice — the normalized
sections do not contain each canonical id exactly once. -/
theorem C3_duplicate_ids_counterexample :
    (normalizeSnapshot C3dupRaw).map sectionIdsOf =
      .ok ["problem", "problem", "model", "metaphor", "caseStat",
           "actionSteps", "oneLiner"] := by
  decide

theorem C3_normalize_sections_witness :
    normalizeSnapshot C3reorderRaw = .ok C3reorderOut ∧
    rawSectionsOf C3reorderRaw = .ok [("model", "x"), ("problem", "y")] ∧
    (sectionIdsOf C3reorderOut =
      ["model", "problem"] ++
        SNAPSHOT_SECTION_IDS.filter
          (fun i => !((["model", "problem"] : List String).contains i)) ∧
      (sectionIdsOf C3reorderOut).Nodup ∧
      (∀ i, i ∈ sectionIdsOf C3reorderOut ↔ i ∈ SNAPSHOT_SECTION_IDS)) :=
  ⟨by decide, by decide,
    C3_normalize_sections C3reorderRaw C3reorderOut
      [("model", "x"), ("problem", "y")] (by decide) (by decide) (by decide)⟩

/-- C9 amended: normalization canonicalizes `sections` and `aiDraft` (and
`finalize` recomputes `text`), but every other field of the raw input
object is passed through into the resulting snapshot by the spread
`{...base, ...value, ...}`: an unknown field keeps its raw value, and a
field absent from the input reads as in the canonical empty snapshot.
Unknown fields are NOT dropped. -/
theorem C9_normalize_field_passthrough : ∀ (raw out : JValue) (k : String),
    normalizeSnapshot raw = .ok out → ¬ k = "sections" → ¬ k = "aiDraft" →
    jGetOpt out k =
      (match (objFieldsOf raw).lookupLast k with
       | some v => v
       | none => jGetOpt createEmptySnapshotState k)
  | .obj fs, out, k, h, hk1, hk2 => by
    simp only [normalizeSnapshot] at h
    cases hr : rawSectionsOf (JValue.obj fs) with
    | error e =>
      rw [hr] at h
      simp [Bind.bind, Except.bind] at h
    | ok rawS =>
      rw [hr] at h
      simp only [exceptOkBind, pure, Except.pure, Except.ok.injEq] at h
      rw [← h]
      simp only [jGetOpt, jGet, JObj.lookup_set, if_neg hk2, if_neg hk1,
        JObj.lookup_spread, createEmptySnapshotState]
      cases (objFieldsOf (JValue.obj fs)).lookupLast k with
      | some v => simp
      | none => simp
  | .arr xs, out, k, h, hk1, hk2 => by
    simp only [normalizeSnapshot] at h
    cases hr : rawSectionsOf (JValue.arr xs) with
    | error e =>
      rw [hr] at h
      simp [Bind.bind, Except.bind] at h
    | ok rawS =>
      rw [hr] at h
      simp only [exceptOkBind, pure, Except.pure, Except.ok.injEq] at h
      rw [← h]
      simp only [jGetOpt, jGet, JObj.lookup_set, if_neg hk2, if_neg hk1,
        JObj.lookup_spread, createEmptySnapshotState]
      cases (objFieldsOf (JValue.arr xs)).lookupLast k with
      | some v => simp
      | none => simp
  | .null, out, k, h, hk1, hk2 => by
    have h2 : createEmptySnapshotState = out := by
      simpa [normalizeSnapshot] using h
    rw [← h2]
    rfl
  | .undefined, out, k, h, hk1, hk2 => by
    have h2 : createEmptySnapshotState = out := by
      simpa [normalizeSnapshot] using h
    rw [← h2]
    rfl
  | .bool b, out, k, h, hk1, hk2 => by
    have h2 : createEmptySnapshotState = out := by
      simpa [normalizeSnapshot] using h
    rw [← h2]
    rfl
  | .num n, out, k, h, hk1, hk2 => by
    have h2 : createEmptySnapshotState = out := by
      simpa [normalizeSnapshot] using h
    rw [← h2]
    rfl
  | .str s, out, k, h, hk1, hk2 => by
    have h2 : createEmptySnapshotState = out := by
      simpa [normalizeSnapshot] using h
    rw [← h2]
    rfl

/-- C9 counterexample: normalizing `{foo: 1}` yields a snapshot that still
has the non-canonical field `foo` with its raw value — the normalizer
spreads the input object into its result instead of dropping unknown
fields. -/
theorem C9_extra_field_not_dropped :
    normalizeSnapshot C9raw = .ok C9out ∧
    jGetOpt C9out "foo" = .num 1 := by
  decide

theorem C9_normalize_field_passthrough_witness :
    normalizeSnapshot C9raw = .ok C9out ∧
    jGetOpt C9out "foo" =
      (match (objFieldsOf C9raw).lookupLast "foo" with
       | some v => v
       | none => jGetOpt createEmptySnapshotState "foo") ∧
    jGetOpt C9out "text" =
      (match (objFieldsOf C9raw).lookupLast "text" with
       | some v => v
       | none => jGetOpt createEmptySnapshotState "text") :=
  ⟨by decide,
    C9_normalize_field_passthrough C9raw C9out "foo" (by decide)
      (by decide) (by decide),
    C9_normalize_field_passthrough C9raw C9out "text" (by decide)
      (by decide) (by decide)⟩

theorem bundleOfState_obj (s : AppState) (pl : JValue)
    (h : bundleOfState s = .ok pl) : jTruthy pl = true := by
  unfold bundleOfState at h
  cases hf : finalizeSnapshot s.snapshotState with
  | error e => rw [hf] at h; simp [Bind.bind, Except.bind] at h
  | ok snap =>
    rw [hf] at h
    simp only [exceptOkBind, pure, Except.pure, Except.ok.injEq] at h
    rw [← h]
    rfl

theorem handleRestoreArchive_fields (s : AppState) (entryId : String)
    (entry : ArchiveEntry) (s5 : AppState)
    (hfind : findMatch (fun e => e.id = entryId) s.archives = some entry)
    (hres : handleRestoreArchive s entryId = .ok s5) :
    s5.archives = s.archives ∧ s5.activeArchiveId = some entry.id ∧
    s5.archiveSyncRef = none ∧
    s5.session = ⟨entry.sessionId, entry.startedAt⟩ := by
  unfold handleRestoreArchive at hres
  rw [hfind] at hres
  have hres2 : (finalizeSnapshot s.snapshotState >>= fun _ =>
      finalizeSnapshot (jOr (jGetOpt (jOr entry.data (JValue.obj JObj.nil))
          "snapshot") createEmptySnapshotState) >>= fun snapCell =>
      pure { session := ⟨entry.sessionId, entry.startedAt⟩,
             brand := jOr (jGetOpt (jOr entry.data (JValue.obj JObj.nil))
               "brand") createDefaultBrand,
             contentPreferences := jOr (jGetOpt (jOr entry.data
               (JValue.obj JObj.nil)) "contentPreferences")
               createDefaultContentPreferences,
             topics := jOr (jGetOpt (jOr entry.data (JValue.obj JObj.nil))
               "topics") (.arr .nil),
             snapshotState := snapCell,
             snapshotChatMessages := jOr (jGetOpt (jOr entry.data
               (JValue.obj JObj.nil)) "snapshotChatMessages") (.arr .nil),
             article := jOr (jGetOpt (jOr entry.data (JValue.obj JObj.nil))
               "article") defaultArticle,
             podcast := jOr (jGetOpt (jOr entry.data (JValue.obj JObj.nil))
               "podcast") defaultPodcast,
             social := jOr (jGetOpt (jOr entry.data (JValue.obj JObj.nil))
               "social") defaultSocial,
             refdata := jOr (jGetOpt (jOr entry.data (JValue.obj JObj.nil))
               "refdata") defaultRefdata,
             n8n := jOr (jGetOpt (jOr entry.data (JValue.obj JObj.nil))
               "n8n") defaultN8N,
             locks := jOr (jGetOpt (jOr entry.data (JValue.obj JObj.nil))
               "locks") defaultLocks,
             archives := s.archives,
             activeArchiveId := some entry.id,
             archiveSyncRef := none } : Except Unit AppState) =
      Except.ok s5 := hres
  cases h1 : finalizeSnapshot s.snapshotState with
  | error e => rw [h1] at hres2; simp [Bind.bind, Except.bind] at hres2
  | ok prev =>
    rw [h1] at hres2
    rw [exceptOkBind] at hres2
    cases h2 : finalizeSnapshot
        (jOr (jGetOpt (jOr entry.data (JValue.obj JObj.nil)) "snapshot")
          createEmptySnapshotState) with
    | error e =>
      rw [h2] at hres2
      simp [Bind.bind, Except.bind] at hres2
    | ok snapCell =>
      rw [h2] at hres2
      rw [exceptOkBind] at hres2
      simp only [pure, Except.pure, Except.ok.injEq] at hres2
      rw [← hres2]
      exact ⟨rfl, rfl, rfl, rfl⟩

/-- C4 amended: after restoring an archive entry the guard reference is
cleared to null (not seeded from the restored data), so the next run of
the continuous-sync guard always re-serializes and calls the upsert; the
persisted archive list is unchanged exactly when the re-built bundle
serializes byte-equal to the stored entry data (with matching title), the
upsert then being an idempotent no-op.  When the stored data does not
round-trip (missing fields, non-normalized snapshot), the guard run
rewrites the entry; see the counterexample. -/
theorem C4_restore_then_sync (s : AppState) (entryId : String)
    (entry : ArchiveEntry) (s5 : AppState) (pl : JValue) (now fresh : String)
    (hfind : findMatch (fun e => e.id = entryId) s.archives = some entry)
    (hres : handleRestoreArchive s entryId = .ok s5)
    (hid : ¬ entry.id = "")
    (hsid : ¬ entry.sessionId = "")
    (hpl : bundleOfState s5 = .ok pl)
    (htop : hasTopicIn (topicListOf pl) = true)
    (htitle : titleOf (topicListOf pl) = .ok entry.title)
    (hser : stringify pl = stringify entry.data) :
    archiveSyncStep s5 now fresh =
      .ok ({ s5 with archiveSyncRef := some (stringify pl) }, true) := by
  obtain ⟨harch, haid, href, hsess⟩ :=
    handleRestoreArchive_fields s entryId entry s5 hfind hres
  have heid : entry.id = entryId :=
    of_decide_eq_true (findMatch_pred_true hfind)
  have hid2 : ¬ entryId = "" := heid ▸ hid
  have hs5id : s5.session.id = entry.sessionId := by rw [hsess]
  have hple : jTruthy pl = true := bundleOfState_obj s5 pl hpl
  have hfind5 : findMatch (matchPred entry.id s5.session.id) s5.archives =
      some entry := by
    rw [harch]
    rw [findMatch_congr (q := fun e => e.id = entryId)
      (fun e => by simp [matchPred, heid, hid2]) s.archives]
    exact hfind
  have hpersist : persistSessionToArchive s5 entry.id (some pl) now fresh =
      .ok (some entry, s5.archives) := by
    rw [persist_unfold s5 entry.id pl now fresh
      (by rw [hs5id]; exact hsid) hple htop entry.title htitle]
    simp only [hfind5]
    rw [if_pos ⟨hser.symm, trivial⟩]
  have ha : s5.activeArchiveId.getD "" = entry.id := by rw [haid]; rfl
  unfold archiveSyncStep
  rw [ha, if_neg hid]
  have hany : (s5.archives.any (fun e => e.id = entry.id)) = true := by
    rw [harch, heid]
    exact findMatch_any hfind
  rw [hany]
  rw [if_neg (show ¬ ((!true) = true) by decide)]
  rw [hpl, exceptOkBind]
  have hrefne : ¬ s5.archiveSyncRef = some (stringify pl) := by
    rw [href]
    simp
  rw [if_neg hrefne]
  rw [hpersist, exceptOkBind]
  rfl

set_option maxHeartbeats 8000000

set_option maxRecDepth 8000

/-- C4 counterexample: entry E2 stores a bundle whose snapshot field is
not in normalized form.  Restoring it and then running the sync guard
once — with the restored state unmodified — calls the upsert and rewrites
the archive entry (savedAt changes from "T0" to "T9"): not zero writes. -/
theorem C4_restore_sync_counterexample :
    handleRestoreArchive C4cexState "E2" = .ok C4cexRestored ∧
    archiveSyncStep C4cexRestored "T9" "f9" =
      .ok ({ C4cexRestored with
               archiveSyncRef := some (stringify C4cexPayload),
               archives := [C4cexUpdated] },
           true) ∧
    C4cexRestored.archives = [C4cexEntry] ∧
    C4cexUpdated.savedAt ≠ C4cexEntry.savedAt := by
  decide

theorem C4_restore_then_sync_witness :
    stringify C4payload = stringify C4entry.data ∧
    archiveSyncStep C4restored "TW" "fW" =
      .ok ({ C4restored with
             archiveSyncRef := some (stringify C4payload) }, true) :=
  ⟨by decide,
    C4_restore_then_sync C4state "E1" C4entry C4restored C4payload "TW" "fW"
      (by decide) (by decide) (by decide) (by decide) (by decide)
      (by decide) (by decide) (by decide)⟩
